import Mathlib

/-!
Shallow embedding of the logic layer of `src/welfare_fee_manager.py`
(Student Welfare Fee Manager).

The Python module's logic layer consists of five functions:
`extract_students_from_csv`, `save_payers_list`, `load_payers_list`,
`compare_students`, `export_students_to_csv`, plus the GUI handler
`WelfareFeeApp.load_master_list` which ties extraction and persistence
together.

Modelling choices:
* A CSV data row, as produced by `csv.DictReader`, is an association
  list from column-header names to cell strings (`Row`).  `row.get(col, '')`
  becomes `dictGet row col ""`.  Rows with fewer cells than the header get
  their missing cells filled with `restval = None`; `RowO` (cells of type
  `Option String`) models that, and `extract_students_from_csvF` is the
  extraction over such rows, raising where `None.strip()` raises.
* A Python `dict` keyed by ID strings (a "Roster") is an association list
  with Python-dict insertion semantics: assigning to an existing key
  updates the value in place (keeping the key's position), assigning a
  fresh key appends (`rosterInsert`).
* Python `str.strip()` and `str.isdigit()` are `pyStrip` and `pyIsdigit`,
  built on code-point range tables of exactly the characters Python's
  `str.isspace` and `str.isdigit` accept (Unicode whitespace; decimal and
  digit-typed Unicode digits, not only ASCII).
* `str(int(float(v)))` is `normalizeId`: `float`'s Unicode-to-ASCII digit
  transform, the full literal grammar (sign, fraction, exponent,
  digit-group underscores), correct rounding of the exact decimal value to
  the nearest IEEE-754 double (ties to even), truncation toward zero;
  `none` — the `except` branch — for unparsable strings and parses on
  which `int()` raises (infinities, `nan`).
* `json.dump`/`json.load` round-trips the dict-of-dicts structure; the
  persistence file is modelled as `Option Json` (`none` = file absent),
  where `Json` is the fragment of JSON the program actually writes.
  `json.load` builds dicts by inserting keys in textual order, which
  `decodeRoster` mirrors with `rosterInsert`.
* File-read failures (missing file, encoding error, malformed CSV) are
  modelled by feeding `none` instead of `some rows` to the functions that
  read a file; the GUI's `try/except` around `load_master_list` then takes
  the error branch and leaves the application state untouched.
-/

namespace WelfareFee

/-- A student record: the value type of a roster, mirroring the Python dict
`{'id': ..., 'name': ..., 'email': ...}` built at line 59 of the source. -/
structure Student where
  id : String
  name : String
  email : String
deriving DecidableEq, Repr

/-- One CSV data row as produced by `csv.DictReader`: column name → cell. -/
abbrev Row := List (String × String)

/-- A roster: Python dict from ID string to record, as an ordered
association list. -/
abbrev Roster := List (String × Student)

/-- `row.get(k, dflt)`: value at key `k`, or the default when absent. -/
def dictGet (row : Row) (k : String) (dflt : String) : String :=
  match row.find? (fun p => p.1 == k) with
  | some p => p.2
  | none => dflt

/-- Does the code point of `c` fall in one of the ranges? -/
def charInRanges (rs : List (Nat × Nat)) (c : Char) : Bool :=
  rs.any (fun r => r.1 ≤ c.toNat && c.toNat ≤ r.2)

/-- Code-point ranges of the characters with Unicode numeric type Decimal
(category Nd).  Each range is a run whose decimal values are 0..9 in
order, so a character's value is its offset from the range start.  These
are the characters Python's `float()` transforms to ASCII digits, and
part of what `str.isdigit()` accepts. -/
def pyDecimalRanges : List (Nat × Nat) :=
  [   (48, 57), (1632, 1641), (1776, 1785), (1984, 1993),
   (2406, 2415), (2534, 2543), (2662, 2671), (2790, 2799),
   (2918, 2927), (3046, 3055), (3174, 3183), (3302, 3311),
   (3430, 3439), (3558, 3567), (3664, 3673), (3792, 3801),
   (3872, 3881), (4160, 4169), (4240, 4249), (6112, 6121),
   (6160, 6169), (6470, 6479), (6608, 6617), (6784, 6793),
   (6800, 6809), (6992, 7001), (7088, 7097), (7232, 7241),
   (7248, 7257), (42528, 42537), (43216, 43225), (43264, 43273),
   (43472, 43481), (43504, 43513), (43600, 43609), (44016, 44025),
   (65296, 65305), (66720, 66729), (68912, 68921), (69734, 69743),
   (69872, 69881), (69942, 69951), (70096, 70105), (70384, 70393),
   (70736, 70745), (70864, 70873), (71248, 71257), (71360, 71369),
   (71472, 71481), (71904, 71913), (72016, 72025), (72784, 72793),
   (73040, 73049), (73120, 73129), (92768, 92777), (92864, 92873),
   (93008, 93017), (120782, 120791), (120792, 120801), (120802, 120811),
   (120812, 120821), (120822, 120831), (123200, 123209), (123632, 123641),
   (125264, 125273), (130032, 130041)]

/-- Code-point ranges of the characters `str.isdigit()` accepts beyond
the decimal ones (Unicode numeric type Digit: superscripts, subscripts,
circled digits and the like). -/
def pyDigitOtherRanges : List (Nat × Nat) :=
  [   (178, 179), (185, 185), (4969, 4977), (6618, 6618),
   (8304, 8304), (8308, 8313), (8320, 8329), (9312, 9320),
   (9332, 9340), (9352, 9360), (9450, 9450), (9461, 9469),
   (9471, 9471), (10102, 10110), (10112, 10120), (10122, 10130),
   (68160, 68163), (69216, 69224), (69714, 69722), (127232, 127242)]

/-- Code-point ranges of the characters `str.isspace()` accepts;
`str.strip()` removes exactly these. -/
def pyWhitespaceRanges : List (Nat × Nat) :=
  [   (9, 13), (28, 32), (133, 133), (160, 160),
   (5760, 5760), (8192, 8202), (8232, 8233), (8239, 8239),
   (8287, 8287), (12288, 12288)]

/-- Python `str.isspace()` for one character. -/
def pyIsSpaceChar (c : Char) : Bool := charInRanges pyWhitespaceRanges c

/-- The decimal value of a Unicode decimal digit, when `c` is one. -/
def pyDecimalVal? (c : Char) : Option Nat :=
  (pyDecimalRanges.find? (fun r => r.1 ≤ c.toNat && c.toNat ≤ r.2)).map
    (fun r => c.toNat - r.1)

/-- Python `str.isdigit()` for one character: decimal digits (ASCII or
any other Unicode decimal digit) and digit-typed characters. -/
def pyIsDigitChar (c : Char) : Bool :=
  charInRanges pyDecimalRanges c || charInRanges pyDigitOtherRanges c

/-- Python `str.strip()` on a character list: drop Unicode whitespace
from both ends. -/
def pyStripList (cs : List Char) : List Char :=
  ((cs.dropWhile pyIsSpaceChar).reverse.dropWhile pyIsSpaceChar).reverse

/-- Python `str.strip()`. -/
def pyStrip (s : String) : String := ⟨pyStripList s.data⟩

/-- Python `str.isdigit()`: non-empty and every character a digit in
Unicode's sense (numeric type Decimal or Digit — not only ASCII). -/
def pyIsdigit (s : String) : Bool :=
  !s.data.isEmpty && s.data.all pyIsDigitChar

/-- The acceptance test of line 56 of the source:
`id_val.isdigit() and 7 <= len(id_val) <= 10`. -/
def isValidIdVal (s : String) : Bool :=
  pyIsdigit s && decide (7 ≤ s.length) && decide (s.length ≤ 10)

/-- Python-dict insertion `students[k] = v`: update in place when the key
exists, append otherwise. -/
def rosterInsert (m : Roster) (k : String) (v : Student) : Roster :=
  match m with
  | [] => [(k, v)]
  | (k', v') :: rest =>
    if k' == k then (k, v) :: rest else (k', v') :: rosterInsert rest k v

/-- `k in m` for a roster. -/
def rosterContains (m : Roster) (k : String) : Bool :=
  m.any (fun p => p.1 == k)

/-- Roster lookup, `m[k]` as an `Option`. -/
def rosterGet? (m : Roster) (k : String) : Option Student :=
  (m.find? (fun p => p.1 == k)).map (fun p => p.2)

/-- `row.get(col, '').strip() if col else ''` — the optional name/email
columns of lines 57–58 (`none` models Python `None`; the empty string is
also falsy in Python). -/
def optColVal (row : Row) (col : Option String) : String :=
  match col with
  | none => ""
  | some c => if c == "" then "" else pyStrip (dictGet row c "")

/-- The record built for an accepted row (line 59 of the source). -/
def mkStudent (row : Row) (id_val : String) (name_col email_col : Option String) : Student :=
  { id := id_val, name := optColVal row name_col, email := optColVal row email_col }

/-- The body of the extraction loop (lines 54–59): trim the value of the
ID column, keep the row only when it is all digits with length in [7, 10],
inserting into the dict. -/
def extractStep (id_col : String) (name_col email_col : Option String)
    (students : Roster) (row : Row) : Roster :=
  let id_val := pyStrip (dictGet row id_col "")
  if isValidIdVal id_val then
    rosterInsert students id_val (mkStudent row id_val name_col email_col)
  else students

/-- `extract_students_from_csv` (lines 46–60): fold the loop body over the
data rows, starting from the empty dict. -/
def extract_students_from_csv (rows : List Row) (id_col : String)
    (name_col email_col : Option String) : Roster :=
  rows.foldl (extractStep id_col name_col email_col) []

/-- The trimmed ID-column value of a row — `id_val` of line 55. -/
def rowIdVal (row : Row) (id_col : String) : String :=
  pyStrip (dictGet row id_col "")

/-- `compare_students` (lines 74–81): iterate the candidate dict; records
whose ID key is in the master dict go to the first list, the rest to the
second, both in the candidate's iteration order. -/
def compare_students (master_dict compare_dict : Roster) :
    List Student × List Student :=
  ((compare_dict.filter (fun p => rosterContains master_dict p.1)).map (fun p => p.2),
   (compare_dict.filter (fun p => !rosterContains master_dict p.1)).map (fun p => p.2))

/-- Leading sign of a Python float literal: `-` negative, optional `+`. -/
def takeSign : List Char → Bool × List Char
  | '-' :: cs => (true, cs)
  | '+' :: cs => (false, cs)
  | cs => (false, cs)

/-- Split off the maximal leading run of ASCII decimal digits. -/
def splitDigits : List Char → List Char × List Char
  | [] => ([], [])
  | c :: cs =>
    if c.isDigit then
      let (d, r) := splitDigits cs
      (c :: d, r)
    else ([], c :: cs)

/-- Value of a digit run. -/
def digitsToNat (ds : List Char) : Nat :=
  ds.foldl (fun n c => 10 * n + (c.toNat - '0'.toNat)) 0

/-- Number of binary digits of `m` (0 for 0); the fuel (any bound on the
recursion depth, `m` itself here) keeps the recursion structural. -/
def bitLenAux : Nat → Nat → Nat
  | 0, _ => 0
  | fuel + 1, m => if m = 0 then 0 else bitLenAux fuel (m / 2) + 1

/-- Number of binary digits of `n`, so `2 ^ (bitLen n - 1) ≤ n < 2 ^ bitLen n`
for `n ≥ 1`. -/
def bitLen (n : Nat) : Nat := bitLenAux n n

/-- Is `N / D < 2 ^ b`? -/
def ratLtTwoPow (N D : Nat) (b : Int) : Bool :=
  if 0 ≤ b then decide (N < D * 2 ^ b.toNat)
  else decide (N * 2 ^ (-b).toNat < D)

/-- Smallest `b` with `N / D < 2 ^ b` (for `N, D ≥ 1`): the bit-length
difference pins it down to two candidates. -/
def binExp (N D : Nat) : Int :=
  let t : Int := (bitLen N : Int) - (bitLen D : Int)
  if ratLtTwoPow N D t then t else t + 1

/-- Round `NN / DD` to the nearest integer, ties to even. -/
def roundHalfEven (NN DD : Nat) : Nat :=
  let q := NN / DD
  let r := NN % DD
  if 2 * r < DD then q
  else if DD < 2 * r then q + 1
  else if q % 2 = 0 then q else q + 1

/-- `int()` of the IEEE-754 double nearest to `M * 10 ^ E` (`M ≥ 1`):
round the magnitude to 53 significant bits (ties to even, exponent
clamped at the subnormal floor −1074), return `none` when the rounded
value reaches `2 ^ 1024` (the float is infinite, so `int()` raises
`OverflowError`), else the rounded value truncated toward zero. -/
def truncRoundedDouble (M : Nat) (E : Int) : Option Nat :=
  let N : Nat := if 0 ≤ E then M * 10 ^ E.toNat else M
  let D : Nat := if 0 ≤ E then 1 else 10 ^ (-E).toNat
  let k : Int := max (binExp N D - 53) (-1074)
  let c : Nat :=
    if 0 ≤ k then roundHalfEven N (D * 2 ^ k.toNat)
    else roundHalfEven (N * 2 ^ (-k).toNat) D
  if 0 ≤ k then
    if 2 ^ 1024 ≤ c * 2 ^ k.toNat then none else some (c * 2 ^ k.toNat)
  else some (c / 2 ^ (-k).toNat)

/-- CPython's transform of a `float()` argument to ASCII: ASCII
characters pass through, Unicode decimal digits become the matching
ASCII digit, Unicode whitespace becomes a space, and any other non-ASCII
character makes `float()` raise. -/
def transformAscii : List Char → Option (List Char)
  | [] => some []
  | c :: cs =>
    match
      (if c.toNat < 128 then some c
       else
         match pyDecimalVal? c with
         | some d => some (Char.ofNat (48 + d))
         | none => if pyIsSpaceChar c then some ' ' else none) with
    | some c2 => (transformAscii cs).map (fun l => c2 :: l)
    | none => none

/-- Is every underscore between two digits — the digit-grouping rule of
numeric literals, which `float()` follows?  `prev` is the character
before the head (any non-digit seed rejects a leading underscore). -/
def underscoreWFAux : Char → List Char → Bool
  | _, [] => true
  | prev, c :: cs =>
    if c == '_' then
      (prev.isDigit && (match cs with | c2 :: _ => c2.isDigit | [] => false))
        && underscoreWFAux c cs
    else underscoreWFAux c cs

/-- Exponent part after `e`/`E`: optional sign and a digit run ending the
literal. -/
def parseExpPart (neg : Bool) (M : Nat) (E0 : Int) (cs : List Char) :
    Option (Bool × Nat × Int) :=
  let (eneg, cs2) := takeSign cs
  let (ed, rest) := splitDigits cs2
  if ed.isEmpty || !rest.isEmpty then none
  else some (neg, M,
    E0 + (if eneg then -(digitsToNat ed : Int) else (digitsToNat ed : Int)))

/-- Parse `s` the way `float(s)` does, up to the exact value: strip
Unicode whitespace, transform Unicode decimal digits to ASCII (any other
non-ASCII character fails), check digit-group underscores and drop them,
then `[sign] (digits [. digits] | . digits) [(e|E) [sign] digits]`.  The
result is the sign, decimal mantissa and decimal exponent: the literal's
exact value is `± M * 10 ^ E`.  The words `inf`/`nan` are not treated:
they parse to floats on which `int()` raises, landing in the same
`except` branch as a failed parse. -/
def pyParseFloatLit? (s : String) : Option (Bool × Nat × Int) :=
  match transformAscii (pyStripList s.data) with
  | none => none
  | some cs0 =>
    if !underscoreWFAux 'x' cs0 then none
    else
      let cs1 := cs0.filter (fun c => !(c == '_'))
      let (neg, cs2) := takeSign cs1
      let (ip, rest) := splitDigits cs2
      match rest with
      | [] => if ip.isEmpty then none else some (neg, digitsToNat ip, 0)
      | '.' :: rest2 =>
        let (fp, rest3) := splitDigits rest2
        if ip.isEmpty && fp.isEmpty then none
        else
          match rest3 with
          | [] => some (neg, digitsToNat (ip ++ fp), -(fp.length : Int))
          | e :: rest4 =>
            if e == 'e' || e == 'E' then
              parseExpPart neg (digitsToNat (ip ++ fp)) (-(fp.length : Int)) rest4
            else none
      | e :: rest2 =>
        if (e == 'e' || e == 'E') && !ip.isEmpty then
          parseExpPart neg (digitsToNat ip) 0 rest2
        else none

/-- `int(float(s))` of lines 91–94, as an `Option` (`none` is the
`except` branch: unparsable strings, and parses whose float is
infinite): parse the literal, round its exact value to the nearest
double, truncate toward zero.  The exponent guards only avoid building
astronomically large numbers: a decimal exponent of 310 or more always
overflows to infinity, and a value whose decimal exponent plus mantissa
bit length is at most −400 lies far below the smallest subnormal, rounds
to 0.0 and truncates to 0. -/
def pyFloatInt? (s : String) : Option Int :=
  match pyParseFloatLit? s with
  | none => none
  | some (neg, M, E) =>
    if M = 0 then some 0
    else if (310 : Int) ≤ E then none
    else if E + (bitLen M : Int) ≤ -400 then some 0
    else
      match truncRoundedDouble M E with
      | none => none
      | some n => some (if neg then -(n : Int) else (n : Int))

/-- The ID cell written by the exporter (lines 89–94): `str(int(float(v)))`
when that succeeds, the value unchanged otherwise. -/
def normalizeId (s : String) : String :=
  match pyFloatInt? s with
  | some n => toString n
  | none => s

/-- `export_students_to_csv` (lines 83–95), as the sequence of rows the
`csv.writer` emits: first the fixed header, then one row per record in
input order, the ID cell normalized. -/
def export_students_to_csv (students : List Student) : List (List String) :=
  students.foldl
    (fun acc s => acc ++ [[normalizeId s.id, s.name, s.email]])
    [["ID", "Name", "Email"]]

/-- The fragment of JSON that `save_payers_list` writes: strings and
string-keyed objects. -/
inductive Json where
  | str : String → Json
  | obj : List (String × Json) → Json

/-- JSON encoding of one record, as `json.dump` writes it. -/
def encodeStudent (s : Student) : Json :=
  Json.obj [("id", Json.str s.id), ("name", Json.str s.name), ("email", Json.str s.email)]

/-- JSON encoding of a roster: one object member per dict entry, in
iteration order. -/
def encodeRoster (r : Roster) : Json :=
  Json.obj (r.map (fun p => (p.1, encodeStudent p.2)))

/-- `json.load`'s view of one record object. -/
def decodeStudent : Json → Option Student
  | Json.obj [("id", Json.str i), ("name", Json.str n), ("email", Json.str e)] =>
    some { id := i, name := n, email := e }
  | _ => none

/-- `json.load` builds the dict by inserting members in textual order
(duplicate keys overwrite, as in Python). -/
def decodeRosterAux : Roster → List (String × Json) → Option Roster
  | acc, [] => some acc
  | acc, (k, j) :: rest =>
    match decodeStudent j with
    | some s => decodeRosterAux (rosterInsert acc k s) rest
    | none => none

/-- Decode a persisted JSON value back into a roster. -/
def decodeRoster : Json → Option Roster
  | Json.obj pairs => decodeRosterAux [] pairs
  | _ => none

/-- `save_payers_list` (lines 62–65): overwrite the persistence file with
the JSON encoding of the roster.  The file system is `Option Json`. -/
def save_payers_list (students : Roster) (_fs : Option Json) : Option Json :=
  some (encodeRoster students)

/-- `load_payers_list` (lines 67–72): the parsed contents of the
persistence file, or the empty dict `{}` when the file does not exist
(no error is raised on absence, by the explicit `os.path.exists` check). -/
def load_payers_list (fs : Option Json) : Json :=
  match fs with
  | some j => j
  | none => Json.obj []

/-- In-memory and on-disk state of the application: the loaded master
roster (`self.payers`) and the persistence file. -/
structure AppState where
  payers : Roster
  disk : Option Json

/-- Outcome reported by the master-load handler's message boxes. -/
inductive LoadOutcome where
  | readError
  | noValidIds
  | updated
deriving DecidableEq, Repr

/-- `WelfareFeeApp.load_master_list` (lines 231–258), with the file dialog
and column dialog abstracted away (the columns are given).  `fileData` is
`none` when reading the chosen file raises (missing, unreadable, bad
encoding, malformed rows): the `except` branch shows an error and returns,
so neither `self.payers` nor the persistence file changes.  An extraction
with no valid IDs warns and returns before assignment.  Only a successful
non-empty extraction replaces the roster and saves it. -/
def load_master_list (st : AppState) (fileData : Option (List Row))
    (id_col : String) (name_col email_col : Option String) :
    AppState × LoadOutcome :=
  match fileData with
  | none => (st, LoadOutcome.readError)
  | some rows =>
    let students := extract_students_from_csv rows id_col name_col email_col
    if students.isEmpty then (st, LoadOutcome.noValidIds)
    else ({ payers := students, disk := save_payers_list students st.disk },
          LoadOutcome.updated)

/-- A CSV file as `csv.DictReader` sees it: a header row and data rows. -/
structure CsvFile where
  header : List String
  data : List (List String)

/-- `csv.DictReader` pairs each data row's cells with the header labels
(cells beyond the header fall under the rest key, which the program never
reads).  This plain-string view covers the rows whose cells are all
present; `dictReaderRowsO` below is the full picture including the
`restval = None` padding of short rows. -/
def dictReaderRows (f : CsvFile) : List Row :=
  f.data.map (fun vals => f.header.zip vals)

/-- One `csv.DictReader` row with possibly missing cells: the reader
fills the cells of short rows with `restval = None`, here `none`. -/
abbrev RowO := List (String × Option String)

/-- `row.get(k, '')` on such a row: the stored cell when the key is
present (possibly the filled-in `None`), the default `''` otherwise. -/
def dictGetO (row : RowO) (k : String) : Option String :=
  match row.find? (fun p => p.1 == k) with
  | some p => p.2
  | none => some ""

/-- `v.strip()` on a fetched cell: when the cell holds Python `None`
(a short row's filled-in value), `None.strip()` raises
`AttributeError`. -/
def stripCell : Option String → Except Unit String
  | some v => Except.ok (pyStrip v)
  | none => Except.error ()

/-- Lines 57–58 over a possibly-incomplete row. -/
def optColValF (row : RowO) (col : Option String) : Except Unit String :=
  match col with
  | none => Except.ok ""
  | some c => if c == "" then Except.ok "" else stripCell (dictGetO row c)

/-- The extraction loop body over a possibly-incomplete row: any
`None.strip()` aborts the whole extraction (the exception propagates out
of `extract_students_from_csv` to the caller). -/
def extractStepF (id_col : String) (name_col email_col : Option String)
    (students : Roster) (row : RowO) : Except Unit Roster :=
  match stripCell (dictGetO row id_col) with
  | Except.error e => Except.error e
  | Except.ok id_val =>
    if isValidIdVal id_val then
      match optColValF row name_col with
      | Except.error e => Except.error e
      | Except.ok name_val =>
        match optColValF row email_col with
        | Except.error e => Except.error e
        | Except.ok email_val =>
          Except.ok (rosterInsert students id_val
            { id := id_val, name := name_val, email := email_val })
    else Except.ok students

/-- The extraction loop over possibly-incomplete rows: stops at the
first raised exception. -/
def extractFoldF (id_col : String) (name_col email_col : Option String) :
    Roster → List RowO → Except Unit Roster
  | acc, [] => Except.ok acc
  | acc, row :: rows =>
    match extractStepF id_col name_col email_col acc row with
    | Except.error e => Except.error e
    | Except.ok acc2 => extractFoldF id_col name_col email_col acc2 rows

/-- `extract_students_from_csv` over possibly-incomplete rows. -/
def extract_students_from_csvF (rows : List RowO) (id_col : String)
    (name_col email_col : Option String) : Except Unit Roster :=
  extractFoldF id_col name_col email_col [] rows

/-- Pair a data row's cells with the header labels, filling missing
cells with `none` (the reader's `restval`). -/
def padCells : List String → List String → RowO
  | [], _ => []
  | h :: hs, [] => (h, none) :: padCells hs []
  | h :: hs, v :: vs => (h, some v) :: padCells hs vs

/-- `csv.DictReader` in full: blank rows are skipped by the reader, short
rows are padded with `none`. -/
def dictReaderRowsO (f : CsvFile) : List RowO :=
  (f.data.filter (fun vals => !vals.isEmpty)).map (fun vals => padCells f.header vals)

/-- A complete row (no `None` cells) as a plain string row. -/
def rowOfOpt (row : RowO) : Row :=
  row.map (fun p => (p.1, p.2.getD ""))

/-- Modelled from the claim's words, for comparison with the source's
test: a string of ASCII decimal digits whose length is between 7 and 10
inclusive. -/
def asciiDigitId (s : String) : Bool :=
  !s.data.isEmpty && s.data.all Char.isDigit
    && decide (7 ≤ s.length) && decide (s.length ≤ 10)

/-! ### Lemmas about the roster operations -/

theorem rosterContains_nil (k : String) : rosterContains [] k = false := rfl

theorem rosterContains_cons (p : String × Student) (m : Roster) (k : String) :
    rosterContains (p :: m) k = (p.1 == k || rosterContains m k) := rfl

theorem rosterContains_append (a b : Roster) (k : String) :
    rosterContains (a ++ b) k = (rosterContains a k || rosterContains b k) :=
  List.any_append

theorem rosterContains_rosterInsert (m : Roster) (k k' : String) (v : Student) :
    rosterContains (rosterInsert m k v) k' = (k == k' || rosterContains m k') := by
  induction m with
  | nil => simp [rosterInsert, rosterContains]
  | cons p rest ih =>
    by_cases h : p.1 = k
    · simp [rosterInsert, h, rosterContains]
    · have hb : (p.1 == k) = false := beq_eq_false_iff_ne.mpr h
      simp only [rosterInsert, hb]
      rw [show ((p.1, p.2) : String × Student) = p from rfl]
      simp [rosterContains_cons, ih, Bool.or_left_comm]

theorem length_rosterInsert (m : Roster) (k : String) (v : Student) :
    (rosterInsert m k v).length ≤ m.length + 1 := by
  induction m with
  | nil => simp [rosterInsert]
  | cons p rest ih =>
    by_cases h : p.1 = k
    · simp [rosterInsert, h]
    · have hb : (p.1 == k) = false := beq_eq_false_iff_ne.mpr h
      simp only [rosterInsert, hb, if_neg]
      simpa using ih

theorem rosterGet?_rosterInsert_self (m : Roster) (k : String) (v : Student) :
    rosterGet? (rosterInsert m k v) k = some v := by
  induction m with
  | nil => simp [rosterInsert, rosterGet?]
  | cons p rest ih =>
    by_cases h : p.1 = k
    · simp [rosterInsert, h, rosterGet?, List.find?_cons]
    · have hb : (p.1 == k) = false := beq_eq_false_iff_ne.mpr h
      simp only [rosterInsert, hb, if_neg, Bool.false_eq_true, not_false_iff]
      simpa [rosterGet?, List.find?_cons, hb] using ih

theorem rosterGet?_rosterInsert_ne (m : Roster) (k k' : String) (v : Student)
    (h : (k == k') = false) :
    rosterGet? (rosterInsert m k v) k' = rosterGet? m k' := by
  induction m with
  | nil => simp [rosterInsert, rosterGet?, List.find?_cons, h]
  | cons p rest ih =>
    by_cases hp : p.1 = k
    · subst hp
      simp [rosterInsert, rosterGet?, List.find?_cons, h]
    · have hb : (p.1 == k) = false := beq_eq_false_iff_ne.mpr hp
      simp only [rosterInsert, hb, if_neg, Bool.false_eq_true, not_false_iff]
      by_cases hq : p.1 = k'
      · simp [rosterGet?, List.find?_cons, hq]
      · have hbq : (p.1 == k') = false := beq_eq_false_iff_ne.mpr hq
        simpa [rosterGet?, List.find?_cons, hbq] using ih

theorem all_rosterInsert (m : Roster) (k : String) (v : Student)
    (p : String × Student → Bool) (hm : m.all p = true) (hv : p (k, v) = true) :
    (rosterInsert m k v).all p = true := by
  induction m with
  | nil => simpa [rosterInsert] using hv
  | cons q rest ih =>
    rw [List.all_cons, Bool.and_eq_true] at hm
    by_cases h : q.1 = k
    · simp [rosterInsert, h, List.all_cons, hv, hm.2]
    · have hb : (q.1 == k) = false := beq_eq_false_iff_ne.mpr h
      simp [rosterInsert, hb, List.all_cons, hm.1, ih hm.2]

theorem rosterInsert_of_not_contains (m : Roster) (k : String) (v : Student)
    (h : rosterContains m k = false) :
    rosterInsert m k v = m ++ [(k, v)] := by
  induction m with
  | nil => rfl
  | cons p rest ih =>
    rw [rosterContains_cons, Bool.or_eq_false_iff] at h
    simp only [rosterInsert, h.1, if_neg, Bool.false_eq_true, not_false_iff]
    rw [show ((p.1, p.2) : String × Student) = p from rfl, ih h.2]
    rfl

/-! ### Lemmas about extraction -/

theorem rosterContains_extract_foldl (rows : List Row) (id_col : String)
    (name_col email_col : Option String) (acc : Roster) (k : String) :
    rosterContains (rows.foldl (extractStep id_col name_col email_col) acc) k =
      (rosterContains acc k ||
        rows.any (fun row => rowIdVal row id_col == k && isValidIdVal (rowIdVal row id_col))) := by
  induction rows generalizing acc with
  | nil => simp
  | cons r rest ih =>
    rw [List.foldl_cons, List.any_cons, ih]
    cases hv : isValidIdVal (rowIdVal r id_col) with
    | false =>
      have hstep : extractStep id_col name_col email_col acc r = acc := by
        simp [extractStep, rowIdVal] at hv ⊢
        simp [hv]
      rw [hstep]
      simp
    | true =>
      have hstep : extractStep id_col name_col email_col acc r =
          rosterInsert acc (rowIdVal r id_col)
            (mkStudent r (rowIdVal r id_col) name_col email_col) := by
        simp [extractStep, rowIdVal] at hv ⊢
        simp [hv]
      rw [hstep, rosterContains_rosterInsert]
      rw [Bool.and_true]
      cases rosterContains acc k <;> cases (rowIdVal r id_col == k) <;>
        cases rest.any (fun row => rowIdVal row id_col == k && isValidIdVal (rowIdVal row id_col)) <;>
        rfl

theorem length_extract_foldl (rows : List Row) (id_col : String)
    (name_col email_col : Option String) (acc : Roster) :
    (rows.foldl (extractStep id_col name_col email_col) acc).length ≤
      acc.length + rows.length := by
  induction rows generalizing acc with
  | nil => simp
  | cons r rest ih =>
    rw [List.foldl_cons]
    have hstep : (extractStep id_col name_col email_col acc r).length ≤ acc.length + 1 := by
      unfold extractStep
      by_cases hv : isValidIdVal (pyStrip (dictGet r id_col "")) = true
      · simp only [hv, if_pos]
        exact length_rosterInsert _ _ _
      · simp only [hv, if_neg, Bool.false_eq_true, not_false_iff]
        omega
    calc (rest.foldl (extractStep id_col name_col email_col)
            (extractStep id_col name_col email_col acc r)).length
        ≤ (extractStep id_col name_col email_col acc r).length + rest.length := ih _
      _ ≤ acc.length + 1 + rest.length := by omega
      _ = acc.length + (r :: rest).length := by simp [List.length_cons]; omega

theorem rosterGet?_extract_foldl (rows : List Row) (id_col : String)
    (name_col email_col : Option String) (acc : Roster) (k : String) :
    rosterGet? (rows.foldl (extractStep id_col name_col email_col) acc) k =
      (match rows.reverse.find?
          (fun row => isValidIdVal (rowIdVal row id_col) && rowIdVal row id_col == k) with
       | some row => some (mkStudent row (rowIdVal row id_col) name_col email_col)
       | none => rosterGet? acc k) := by
  induction rows generalizing acc with
  | nil => simp
  | cons r rest ih =>
    rw [List.foldl_cons, ih, List.reverse_cons, List.find?_append]
    cases hfind : rest.reverse.find?
        (fun row => isValidIdVal (rowIdVal row id_col) && rowIdVal row id_col == k) with
    | some row => simp [Option.or]
    | none =>
      simp only [Option.or, List.find?_cons, List.find?_nil]
      cases hv : isValidIdVal (rowIdVal r id_col) with
      | false =>
        have hstep : extractStep id_col name_col email_col acc r = acc := by
          simp [extractStep, rowIdVal] at hv ⊢
          simp [hv]
        simp [hstep, hv]
      | true =>
        have hstep : extractStep id_col name_col email_col acc r =
            rosterInsert acc (rowIdVal r id_col)
              (mkStudent r (rowIdVal r id_col) name_col email_col) := by
          simp [extractStep, rowIdVal] at hv ⊢
          simp [hv]
        rw [hstep]
        cases hk : (rowIdVal r id_col == k) with
        | true =>
          have hk' : rowIdVal r id_col = k := beq_iff_eq.mp hk
          subst hk'
          simp [rosterGet?_rosterInsert_self]
        | false =>
          rw [rosterGet?_rosterInsert_ne _ _ _ _ hk]
          rfl

/-! ### Lemmas about export, comparison, persistence and DictReader rows -/

theorem export_foldl (students : List Student) (acc : List (List String)) :
    students.foldl (fun acc s => acc ++ [[normalizeId s.id, s.name, s.email]]) acc =
      acc ++ students.map (fun s => [normalizeId s.id, s.name, s.email]) := by
  induction students generalizing acc with
  | nil => simp
  | cons s rest ih => simp [ih]

theorem export_students_to_csv_eq (students : List Student) :
    export_students_to_csv students =
      ["ID", "Name", "Email"] :: students.map (fun s => [normalizeId s.id, s.name, s.email]) := by
  rw [export_students_to_csv, export_foldl]
  rfl

theorem length_filter_add_length_filter_not {α : Type} (l : List α) (p : α → Bool) :
    (l.filter p).length + (l.filter (fun a => !p a)).length = l.length := by
  induction l with
  | nil => rfl
  | cons a rest ih =>
    cases h : p a <;> simp [List.filter_cons, h] <;> omega

theorem decodeStudent_encodeStudent (s : Student) :
    decodeStudent (encodeStudent s) = some s := rfl

theorem decodeRosterAux_encode (r : Roster) (acc : Roster)
    (hnodup : (r.map Prod.fst).Nodup)
    (hdisj : ∀ k ∈ r.map Prod.fst, rosterContains acc k = false) :
    decodeRosterAux acc (r.map (fun p => (p.1, encodeStudent p.2))) = some (acc ++ r) := by
  induction r generalizing acc with
  | nil => simp [decodeRosterAux]
  | cons p rest ih =>
    rw [List.map_cons]
    rw [show decodeRosterAux acc ((p.1, encodeStudent p.2) ::
          rest.map (fun q => (q.1, encodeStudent q.2))) =
        decodeRosterAux (rosterInsert acc p.1 p.2)
          (rest.map (fun q => (q.1, encodeStudent q.2))) from rfl]
    have habs : rosterContains acc p.1 = false := hdisj p.1 (by simp)
    rw [rosterInsert_of_not_contains acc p.1 p.2 habs]
    rw [List.map_cons, List.nodup_cons] at hnodup
    have hres := ih (acc ++ [(p.1, p.2)]) hnodup.2 (by
      intro k hk
      rw [rosterContains_append, Bool.or_eq_false_iff]
      constructor
      · exact hdisj k (by rw [List.map_cons]; exact List.mem_cons_of_mem _ hk)
      · have hne : p.1 ≠ k := by
          intro he
          exact hnodup.1 (he ▸ hk)
        simp [rosterContains, beq_eq_false_iff_ne.mpr hne])
    rw [hres]
    simp

theorem decodeRoster_encodeRoster (r : Roster) (hnodup : (r.map Prod.fst).Nodup) :
    decodeRoster (encodeRoster r) = some r := by
  rw [encodeRoster, decodeRoster]
  have h := decodeRosterAux_encode r [] hnodup (by intro k _; rfl)
  simpa using h

theorem find?_zip_eq_none (header vals : List String) (idc : String)
    (h : idc ∉ header) :
    (header.zip vals).find? (fun p => p.1 == idc) = none := by
  induction header generalizing vals with
  | nil => simp
  | cons c cs ih =>
    cases vals with
    | nil => simp
    | cons v vs =>
      rw [List.mem_cons, not_or] at h
      rw [List.zip_cons_cons, List.find?_cons]
      have hb : (c == idc) = false := beq_eq_false_iff_ne.mpr (Ne.symm h.1)
      rw [hb]
      exact ih vs h.2

theorem extract_foldl_all_invalid (rows : List Row) (id_col : String)
    (name_col email_col : Option String) (acc : Roster)
    (h : ∀ row ∈ rows, isValidIdVal (rowIdVal row id_col) = false) :
    rows.foldl (extractStep id_col name_col email_col) acc = acc := by
  induction rows generalizing acc with
  | nil => rfl
  | cons r rest ih =>
    rw [List.foldl_cons]
    have hr := h r (by simp)
    have hstep : extractStep id_col name_col email_col acc r = acc := by
      rw [rowIdVal] at hr
      simp [extractStep, hr]
    rw [hstep]
    exact ih acc (fun row hrow => h row (by simp [hrow]))

theorem extract_foldl_all_id (rows : List Row) (id_col : String)
    (name_col email_col : Option String) (acc : Roster)
    (hacc : acc.all (fun p => p.2.id == p.1) = true) :
    (rows.foldl (extractStep id_col name_col email_col) acc).all
      (fun p => p.2.id == p.1) = true := by
  induction rows generalizing acc with
  | nil => exact hacc
  | cons r rest ih =>
    rw [List.foldl_cons]
    apply ih
    unfold extractStep
    by_cases hv : isValidIdVal (pyStrip (dictGet r id_col "")) = true
    · simp only [hv, if_pos]
      exact all_rosterInsert _ _ _ _ hacc (beq_self_eq_true _)
    · simp only [hv, if_neg, Bool.false_eq_true, not_false_iff]
      exact hacc

/-! ### Lemmas relating the fallible row model to the plain one -/

theorem find?_rowOfOpt (row : RowO) (k : String) :
    (rowOfOpt row).find? (fun p => p.1 == k) =
      (row.find? (fun p => p.1 == k)).map (fun p => (p.1, p.2.getD "")) := by
  induction row with
  | nil => rfl
  | cons p rest ih =>
    rw [rowOfOpt, List.map_cons, List.find?_cons, List.find?_cons]
    cases h : (p.1 == k) with
    | true => rfl
    | false => exact ih

theorem dictGetO_of_present (row : RowO) (k : String)
    (h : row.all (fun p => p.2.isSome) = true) :
    dictGetO row k = some (dictGet (rowOfOpt row) k "") := by
  rw [dictGetO, dictGet, find?_rowOfOpt]
  cases hf : row.find? (fun p => p.1 == k) with
  | none => rfl
  | some p =>
    have hp : p ∈ row := List.mem_of_find?_eq_some hf
    have hsome := (List.all_eq_true.mp h) p hp
    cases hv : p.2 with
    | none => rw [hv] at hsome; simp at hsome
    | some v => simp [hv]

theorem optColValF_of_present (row : RowO) (col : Option String)
    (h : row.all (fun p => p.2.isSome) = true) :
    optColValF row col = Except.ok (optColVal (rowOfOpt row) col) := by
  cases col with
  | none => rfl
  | some c =>
    simp only [optColValF, optColVal]
    cases hc : (c == "") with
    | true => simp
    | false =>
      rw [dictGetO_of_present row c h]
      simp [stripCell]

theorem extractStepF_of_present (id_col : String) (name_col email_col : Option String)
    (students : Roster) (row : RowO) (h : row.all (fun p => p.2.isSome) = true) :
    extractStepF id_col name_col email_col students row =
      Except.ok (extractStep id_col name_col email_col students (rowOfOpt row)) := by
  simp only [extractStepF, extractStep, dictGetO_of_present row id_col h, stripCell]
  cases hv : isValidIdVal (pyStrip (dictGet (rowOfOpt row) id_col "")) with
  | false => simp [hv]
  | true =>
    simp [hv, optColValF_of_present row name_col h,
      optColValF_of_present row email_col h, mkStudent]

theorem extractFoldF_of_present (rows : List RowO) (id_col : String)
    (name_col email_col : Option String) (acc : Roster)
    (h : rows.all (fun row => row.all (fun p => p.2.isSome)) = true) :
    extractFoldF id_col name_col email_col acc rows =
      Except.ok ((rows.map rowOfOpt).foldl (extractStep id_col name_col email_col) acc) := by
  induction rows generalizing acc with
  | nil => rfl
  | cons r rest ih =>
    rw [List.all_cons, Bool.and_eq_true] at h
    simp only [extractFoldF, List.map_cons, List.foldl_cons]
    rw [extractStepF_of_present id_col name_col email_col acc r h.1]
    exact ih _ h.2

/-! ### The claims -/

/-- C1 is false as stated, in two ways.  First, acceptance is not
"ASCII decimal digits": `str.isdigit` also accepts other Unicode decimal
digits, so a row whose ID cell holds the seven Arabic-Indic digits
`"١٢٣٤٥٦٧"` contributes a record although the claim's shape test
(`asciiDigitId`, written from the claim's words) rejects that value.
Second, not every non-contributing row is "skipped silently": a data row
with fewer cells than the header is padded with `None` by the reader,
and `None.strip()` raises, aborting the extraction with an error. -/
theorem extract_ascii_only_counterexample :
    rosterContains
      (extract_students_from_csv [[("TZ", "١٢٣٤٥٦٧")]] "TZ" none none) "١٢٣٤٥٦٧" = true ∧
    asciiDigitId "١٢٣٤٥٦٧" = false ∧
    extract_students_from_csvF
      (dictReaderRowsO (CsvFile.mk ["Name", "TZ"] [["Dana"]])) "TZ" none none =
      Except.error () := by
  refine ⟨by decide, by decide, by rfl⟩

/-- C1 (amended): over the data rows that supply a cell for every header
column, a row contributes a record iff the raw value in the ID column,
after trimming surrounding (Unicode) whitespace, passes Python's
`str.isdigit` — decimal digits, ASCII or not — with length 7 to 10; such
rows aside nothing is raised, the fallible extraction returns exactly
the total one's roster, which never has more entries than there are data
rows.  (A row missing cells instead aborts the extraction with an
error — see the counterexample.) -/
theorem extract_row_filter_python_digits (rowsO : List RowO) (id_col : String)
    (name_col email_col : Option String)
    (h : rowsO.all (fun row => row.all (fun p => p.2.isSome)) = true) :
    extract_students_from_csvF rowsO id_col name_col email_col =
      Except.ok (extract_students_from_csv (rowsO.map rowOfOpt) id_col name_col email_col) ∧
    (extract_students_from_csv (rowsO.map rowOfOpt) id_col name_col email_col).length ≤
      rowsO.length ∧
    ∀ k : String,
      rosterContains (extract_students_from_csv (rowsO.map rowOfOpt) id_col name_col email_col) k =
        (rowsO.map rowOfOpt).any
          (fun row => rowIdVal row id_col == k && isValidIdVal (rowIdVal row id_col)) := by
  refine ⟨?_, ?_, ?_⟩
  · rw [extract_students_from_csvF, extract_students_from_csv]
    exact extractFoldF_of_present rowsO id_col name_col email_col [] h
  · have hl := length_extract_foldl (rowsO.map rowOfOpt) id_col name_col email_col []
    rw [extract_students_from_csv]
    simpa using hl
  · intro k
    rw [extract_students_from_csv, rosterContains_extract_foldl]
    rfl

/-- Witness for the amended C1 at a one-row file whose ID cell holds
Arabic-Indic digits: the hypothesis (all cells present) is discharged
concretely and the fallible extraction agrees with the total one. -/
theorem extract_row_filter_python_digits_witness :
    ([[(("TZ" : String), some "١٢٣٤٥٦٧")]].all
      (fun row => row.all (fun p => p.2.isSome)) = true) ∧
    extract_students_from_csvF [[("TZ", some "١٢٣٤٥٦٧")]] "TZ" none none =
      Except.ok (extract_students_from_csv
        ([[(("TZ" : String), some "١٢٣٤٥٦٧")]].map rowOfOpt) "TZ" none none) :=
  ⟨by decide,
   (extract_row_filter_python_digits [[("TZ", some "١٢٣٤٥٦٧")]] "TZ" none none (by decide)).1⟩

/-- C2: `compare_students` returns, in the candidate's iteration order,
exactly the candidate records whose ID is a key of the master (first list)
and exactly those whose ID is not (second list); each candidate entry lands
in exactly one list, so the lengths add up to the candidate's size, and
every output record is a value of the candidate roster (records present
only in the master never appear). -/
theorem compare_partition (m c : Roster) :
    (compare_students m c).1 =
      (c.filter (fun p => rosterContains m p.1)).map (fun p => p.2) ∧
    (compare_students m c).2 =
      (c.filter (fun p => !rosterContains m p.1)).map (fun p => p.2) ∧
    (compare_students m c).1.length + (compare_students m c).2.length = c.length ∧
    (compare_students m c).1.all (fun s => c.any (fun p => p.2 == s)) = true ∧
    (compare_students m c).2.all (fun s => c.any (fun p => p.2 == s)) = true := by
  refine ⟨rfl, rfl, ?_, ?_, ?_⟩
  · simp only [compare_students, List.length_map]
    exact length_filter_add_length_filter_not c _
  · rw [List.all_eq_true]
    intro s hs
    obtain ⟨p, hp, rfl⟩ := List.mem_map.mp hs
    exact List.any_eq_true.mpr ⟨p, List.mem_of_mem_filter hp, beq_self_eq_true _⟩
  · rw [List.all_eq_true]
    intro s hs
    obtain ⟨p, hp, rfl⟩ := List.mem_map.mp hs
    exact List.any_eq_true.mpr ⟨p, List.mem_of_mem_filter hp, beq_self_eq_true _⟩

set_option maxRecDepth 8000 in
set_option exponentiation.threshold 2048 in
/-- C3: the ID cell the exporter writes for each record is
`str(int(float(id)))` when that succeeds — the stored value parsed as a
float (the nearest binary double), truncated to an integer, rendered as a
plain decimal string — and the stored value unchanged when `float()` or
`int()` raises.  In particular `"123456789.0"` is written as
`"123456789"`; exponent and underscore forms parse (`"1e3"`,
`"1_000"` → `"1000"`), the parsed value is the nearest double
(`"0.99999999999999999"` → `"1"`, ties to even on
`"9007199254740993"` → `"9007199254740992"`), Unicode decimal digits
parse (`"١٢٣٤٥٦٧"` → `"1234567"`), and `"inf"` (whose `int()` raises
`OverflowError`) and non-numeric strings pass through unchanged. -/
theorem export_id_normalization (students : List Student) :
    export_students_to_csv students =
      ["ID", "Name", "Email"] ::
        students.map (fun s => [normalizeId s.id, s.name, s.email]) ∧
    (∀ s : String, normalizeId s =
      (match pyFloatInt? s with
       | some n => toString n
       | none => s)) ∧
    normalizeId "123456789.0" = "123456789" ∧
    normalizeId "12.9" = "12" ∧
    normalizeId "-12.9" = "-12" ∧
    normalizeId "1e3" = "1000" ∧
    normalizeId "1_000" = "1000" ∧
    normalizeId "0.99999999999999999" = "1" ∧
    normalizeId "9007199254740993" = "9007199254740992" ∧
    normalizeId "١٢٣٤٥٦٧" = "1234567" ∧
    normalizeId "inf" = "inf" ∧
    normalizeId "abc" = "abc" ∧
    normalizeId "" = "" := by
  refine ⟨export_students_to_csv_eq students, fun s => rfl,
    ?_, ?_, ?_, ?_, ?_, ?_, ?_, ?_, ?_, ?_, ?_⟩
  · decide
  · decide
  · decide
  · decide
  · decide
  · decide
  · decide
  · decide
  · decide
  · decide
  · decide

/-- C4: persistence round-trips — saving a roster and loading it back
yields an equal roster (for genuine rosters, whose keys are unique, as
Python dict keys are). -/
theorem persistence_roundtrip (r : Roster) (fs : Option Json)
    (h : (r.map Prod.fst).Nodup) :
    decodeRoster (load_payers_list (save_payers_list r fs)) = some r := by
  rw [save_payers_list, load_payers_list]
  exact decodeRoster_encodeRoster r h

/-- Witness for C4 at a concrete two-entry roster. -/
theorem persistence_roundtrip_witness :
    ((([("1234567", Student.mk "1234567" "Dana" "d@x.com"),
        ("7654321", Student.mk "7654321" "Omer" "o@x.com")] : Roster).map Prod.fst).Nodup) ∧
    decodeRoster (load_payers_list (save_payers_list
        [("1234567", Student.mk "1234567" "Dana" "d@x.com"),
         ("7654321", Student.mk "7654321" "Omer" "o@x.com")] none)) =
      some [("1234567", Student.mk "1234567" "Dana" "d@x.com"),
            ("7654321", Student.mk "7654321" "Omer" "o@x.com")] :=
  ⟨by decide, persistence_roundtrip _ none (by decide)⟩

/-- C5: when reading the chosen master file fails, the handler reports a
read error and changes nothing: the in-memory payers roster and the
persistence file are exactly what they were. -/
theorem load_master_read_error_preserves_state (st : AppState) (id_col : String)
    (name_col email_col : Option String) :
    load_master_list st none id_col name_col email_col = (st, LoadOutcome.readError) ∧
    (load_master_list st none id_col name_col email_col).1.payers = st.payers ∧
    (load_master_list st none id_col name_col email_col).1.disk = st.disk :=
  ⟨rfl, rfl, rfl⟩

/-- C6: when several rows share the same valid trimmed ID, the roster holds
exactly the record built from the last such row — looking any key up in
the extraction result gives the record of the last row whose valid trimmed
ID equals the key (and nothing when there is no such row). -/
theorem extract_last_occurrence_wins (rows : List Row) (id_col : String)
    (name_col email_col : Option String) (k : String) :
    rosterGet? (extract_students_from_csv rows id_col name_col email_col) k =
      (rows.reverse.find?
          (fun row => isValidIdVal (rowIdVal row id_col) && rowIdVal row id_col == k)).map
        (fun row => mkStudent row (rowIdVal row id_col) name_col email_col) := by
  rw [extract_students_from_csv, rosterGet?_extract_foldl]
  cases h : rows.reverse.find?
      (fun row => isValidIdVal (rowIdVal row id_col) && rowIdVal row id_col == k) with
  | some row => rfl
  | none => rfl

/-- C7: loading when the persistence file does not exist yields the empty
dict, hence the empty roster, and no error. -/
theorem load_missing_file_returns_empty :
    load_payers_list none = Json.obj [] ∧
    decodeRoster (load_payers_list none) = some ([] : Roster) :=
  ⟨rfl, rfl⟩

/-- C8: the exporter emits first the fixed header `ID, Name, Email`, then
exactly one row per input record, in input order. -/
theorem export_header_and_row_order (students : List Student) :
    (export_students_to_csv students).head? = some ["ID", "Name", "Email"] ∧
    (export_students_to_csv students).tail =
      students.map (fun s => [normalizeId s.id, s.name, s.email]) ∧
    (export_students_to_csv students).length = students.length + 1 := by
  rw [export_students_to_csv_eq]
  exact ⟨rfl, rfl, by simp⟩

/-- C9: every entry of an extraction result maps a key to a record whose
`id` field is that very key. -/
theorem extract_key_matches_record_id (rows : List Row) (id_col : String)
    (name_col email_col : Option String) :
    (extract_students_from_csv rows id_col name_col email_col).all
      (fun p => p.2.id == p.1) = true := by
  rw [extract_students_from_csv]
  exact extract_foldl_all_id rows id_col name_col email_col [] rfl

/-- C10: when the chosen ID column is not one of the file's headers, every
`row.get` returns the default empty string, no row passes validation, and
the extraction result is empty — no error is raised. -/
theorem extract_unknown_column_yields_empty (f : CsvFile) (id_col : String)
    (name_col email_col : Option String) (h : id_col ∉ f.header) :
    extract_students_from_csv (dictReaderRows f) id_col name_col email_col = [] := by
  rw [extract_students_from_csv]
  apply extract_foldl_all_invalid
  intro row hrow
  obtain ⟨vals, hvals, rfl⟩ := List.mem_map.mp hrow
  have hget : dictGet (f.header.zip vals) id_col "" = "" := by
    rw [dictGet, find?_zip_eq_none f.header vals id_col h]
  rw [rowIdVal, hget]
  decide

/-- Witness for C10 at a concrete file whose headers do not include the
chosen ID column. -/
theorem extract_unknown_column_yields_empty_witness :
    ("TZ" ∉ (["A", "B"] : List String)) ∧
    extract_students_from_csv
      (dictReaderRows (CsvFile.mk ["A", "B"] [["1234567", "x"]])) "TZ" none none = [] :=
  ⟨by decide, extract_unknown_column_yields_empty _ "TZ" none none (by decide)⟩

end WelfareFee
